import Mathlib

/-!
Verification of the AutoPostGPT publisher and generator modules.

The definitions below are a shallow embedding of `src/publisher.py` and
`src/generator.py`.  External effects (HTTP requests, the XML-RPC client,
the LLM, `random`) are modelled as explicit inputs: an HTTP call becomes a
value describing its outcome, the random choice of a list element becomes
an injected selection function, and the LLM becomes a stream of response
strings indexed by attempt number.  Python strings are modelled as Lean
strings, and the character-level operations (`strip`, `lstrip`, slicing,
`in`) are re-implemented over `List Char` so that they mirror the Python
semantics exactly.
-/

namespace AutoPost

/-! ## String helpers mirroring the Python string operations -/

/-- Python `s.rstrip('/')` restricted to the single slash character:
drop every trailing `'/'`. -/
def rstripSlash (s : String) : String :=
  String.mk ((s.toList.reverse.dropWhile (fun c => c = '/')).reverse)

/-- Python `s.startswith(pre)`. -/
def pyStartsWith (s pre : String) : Bool :=
  pre.toList.isPrefixOf s.toList

/-- Python `s.endswith(suf)`. -/
def pyEndsWith (s suf : String) : Bool :=
  suf.toList.isSuffixOf s.toList

/-- Python `s[:-n]` for `n > 0`: keep the first `length - n` characters
(empty when the string has at most `n` characters). -/
def pyDropRight (s : String) (n : Nat) : String :=
  String.mk (s.toList.take (s.toList.length - n))

/-- Characters stripped by Python `str.strip()` with no argument
(the ASCII whitespace actually produced by the LLM responses). -/
def pyIsSpace (c : Char) : Bool :=
  c = ' ' || c = '\t' || c = '\n' || c = '\r'

/-- Python `s.strip()`. -/
def pyStrip (s : String) : String :=
  String.mk (((s.toList.dropWhile pyIsSpace).reverse.dropWhile pyIsSpace).reverse)

/-- The character set of `title.lstrip('0123456789.、 ')` in
`ArticleGenerator.generate_titles` (src/generator.py line 150). -/
def markChars : List Char :=
  ['0', '1', '2', '3', '4', '5', '6', '7', '8', '9', '.', '、', ' ']

/-- Python `title.lstrip('0123456789.、 ')`: drop the maximal leading run
of characters belonging to `markChars`. -/
def lstripMarks (s : String) : String :=
  String.mk (s.toList.dropWhile (fun c => c ∈ markChars))

/-- Python `split('\n')`: cut a character list at every newline, keeping
empty pieces. -/
def splitLines : List Char → List (List Char)
  | [] => [[]]
  | c :: rest =>
    match splitLines rest with
    | [] => [[]]
    | h :: t => if c = '\n' then [] :: h :: t else (c :: h) :: t

/-- Case-insensitive lowering of a character list (Python `str.lower()`
on the alphabets appearing in this program). -/
def lowerChars (l : List Char) : List Char :=
  l.map Char.toLower

/-- Python `needle in haystack` (substring containment). -/
def isSubstringOf (needle hay : List Char) : Bool :=
  hay.tails.any (fun t => needle.isPrefixOf t)

/-! ## Publisher embedding (src/publisher.py) -/

/-- A remote category as returned by either protocol
(`cat['id']`/`cat['name']` for REST, `int(cat.id)`/`cat.name` for
XML-RPC). -/
structure Category where
  id : Nat
  name : String
deriving DecidableEq

/-- The scheme-prepending step shared by both constructors: prepend
`https://` when no HTTP scheme is present. -/
def ensureScheme (url : String) : String :=
  if !(pyStartsWith url "http://" || pyStartsWith url "https://") then
    "https://" ++ url
  else url

/-- URL normalization performed by `WordPressRESTPublisher.__init__`
(src/publisher.py lines 74-83): remove 12 trailing characters when the
URL ends with `/xmlrpc.php`, prepend `https://` when no HTTP scheme is
present, then strip trailing slashes. -/
def restNormalizeBase (url : String) : String :=
  rstripSlash (ensureScheme
    (if pyEndsWith url "/xmlrpc.php" then pyDropRight url 12 else url))

/-- URL handling performed by `WordPressXMLRPCPublisher.__init__`
(src/publisher.py lines 335-339): only prepend `https://` when no HTTP
scheme is present; nothing is stripped. -/
def xmlrpcNormalizeUrl (url : String) : String :=
  ensureScheme url

/-- Outcome of the HTTP GET issued by
`WordPressRESTPublisher.test_connection`: either the transport raised a
`requests` exception, or a response with some status code came back. -/
inductive RestHttpResult where
  | raised
  | resp (status : Nat)
deriving DecidableEq

/-- `WordPressRESTPublisher.test_connection` (src/publisher.py lines
96-119): status 200 is success, status 401 and every other status are
failures, and a transport exception is caught and turned into `false`. -/
def restTestConnection : RestHttpResult → Bool
  | .raised => false
  | .resp s => if s = 200 then true else if s = 401 then false else false

/-- Outcome of `self.client.call(...)` in the XML-RPC adapter: the call
either returns normally or raises. -/
inductive RpcCallResult where
  | ok
  | raised
deriving DecidableEq

/-- `WordPressXMLRPCPublisher.test_connection` (src/publisher.py lines
348-356): any non-throwing call is success; an exception is caught and
turned into `false`. -/
def xmlrpcTestConnection : RpcCallResult → Bool
  | .ok => true
  | .raised => false

/-- `WordPressRESTPublisher.get_random_category_id` (src/publisher.py
lines 143-166) with `random.choice` injected as `pick` and the
already-fetched category list as `cats`: return `None` when there are no
categories, otherwise filter out id 1 (falling back to the full list when
the filter empties it) and pick one. -/
def restGetRandomCategoryId (pick : List Category → Category)
    (cats : List Category) : Option Nat :=
  if cats.isEmpty then none
  else if (cats.filter (fun c => decide (c.id ≠ 1))).isEmpty then
    some (pick cats).id
  else
    some (pick (cats.filter (fun c => decide (c.id ≠ 1)))).id

/-- `WordPressXMLRPCPublisher.get_random_category` (src/publisher.py
lines 368-391): the same filtering logic, returning the `(name, id)`
pair of the picked category. -/
def xmlrpcGetRandomCategory (pick : List Category → Category)
    (cats : List Category) : Option (String × Nat) :=
  if cats.isEmpty then none
  else if (cats.filter (fun c => decide (c.id ≠ 1))).isEmpty then
    some ((pick cats).name, (pick cats).id)
  else
    some ((pick (cats.filter (fun c => decide (c.id ≠ 1)))).name,
      (pick (cats.filter (fun c => decide (c.id ≠ 1)))).id)

/-- `WordPressRESTPublisher.get_category_id` (src/publisher.py lines
168-190): `searchResp = none` models a non-200 search response or a
raised exception; otherwise the first exact name match wins, and a
search with no match yields `None`. -/
def restGetCategoryId (searchResp : Option (List Category))
    (name : String) : Option Nat :=
  match searchResp with
  | none => none
  | some cats => (cats.find? (fun c => c.name == name)).map (fun c => c.id)

/-- Python `category or self.default_category` (src/publisher.py line
250): an absent or empty requested category falls back to the configured
default. -/
def effectiveName (category : Option String) (dflt : String) : String :=
  match category with
  | some c => if c = "" then dflt else c
  | none => dflt

/-- The category-selection slice of `WordPressRESTPublisher.publish_post`
(src/publisher.py lines 249-263): look the effective name up when it is
non-empty, and fall back to the random choice when the lookup yields no
id (Python `if not category_id` also treats id 0 as missing). -/
def restSelectCategoryId (pick : List Category → Category)
    (searchResp : Option (List Category)) (allCats : List Category)
    (category : Option String) (dflt : String) : Option Nat :=
  match (if effectiveName category dflt ≠ "" then
      restGetCategoryId searchResp (effectiveName category dflt)
    else none) with
  | some i => if i = 0 then restGetRandomCategoryId pick allCats else some i
  | none => restGetRandomCategoryId pick allCats

/-- Outcomes of the two HTTP calls made by
`WordPressRESTPublisher.create_tag` for one tag name: the POST creating
the tag and the GET searching for it, each of which may raise. -/
structure TagEnv where
  createRaises : Bool
  createStatus : Nat
  createdId : Nat
  searchRaises : Bool
  searchStatus : Nat
  searchResults : List (String × Nat)
deriving DecidableEq

/-- `WordPressRESTPublisher.create_tag` (src/publisher.py lines 192-223):
201 returns the new id; 400 (the conflict signal) triggers a search by
name whose first exact match is reused; every other status, a missing
match, and any exception yield `None`. -/
def createTag (env : TagEnv) (name : String) : Option Nat :=
  if env.createRaises then none
  else if env.createStatus = 201 then some env.createdId
  else if env.createStatus = 400 then
    if env.searchRaises then none
    else if env.searchStatus = 200 then
      (env.searchResults.find? (fun p => p.1 == name)).map (fun p => p.2)
    else none
  else none

/-- The tag-collection loop of `WordPressRESTPublisher.publish_post`
(src/publisher.py lines 265-273): resolve every requested tag name in
order and keep the ids that resolved, skipping the rest. The per-name
HTTP world is `w`. -/
def collectTagIds (w : String → TagEnv) (tags : List String) : List Nat :=
  tags.filterMap (fun t => createTag (w t) t)

/-- Outcome of an adapter constructor inside `create_publisher`: it
either returns an instance or raises. -/
inductive CtorResult where
  | ok
  | raised
deriving DecidableEq

/-- The externally determined outcomes that drive one run of
`create_publisher`: whether each constructor raises and what each
adapter's `test_connection` returns. -/
structure FactoryEnv where
  restCtor : CtorResult
  restTest : Bool
  rpcCtor : CtorResult
  rpcTest : Bool
deriving DecidableEq

/-- Which adapter the factory returned. -/
inductive PublisherKind where
  | rest
  | xmlrpc
deriving DecidableEq

/-- The configured `api_method`. -/
inductive ApiMethod where
  | auto
  | restOnly
  | xmlrpcOnly
  | other
deriving DecidableEq

/-- The XML-RPC branch of `auto` mode (src/publisher.py lines 509-519):
a constructor exception or a failed connection test yields `None`. -/
def tryXmlrpcBranch (e : FactoryEnv) : Option PublisherKind :=
  match e.rpcCtor with
  | .ok => if e.rpcTest then some .xmlrpc else none
  | .raised => none

/-- `create_publisher` (src/publisher.py lines 472-537) over the outcome
environment: disabled configurations yield `None`; `auto` tries REST
first (a constructor exception or failed test falls through to the
XML-RPC branch); the forced modes return the adapter when its
constructor succeeds, the outer handler turning a constructor exception
into `None`. -/
def createPublisher (enabled : Bool) (method : ApiMethod)
    (e : FactoryEnv) : Option PublisherKind :=
  if !enabled then none
  else
    match method with
    | .auto =>
      match e.restCtor with
      | .ok => if e.restTest then some .rest else tryXmlrpcBranch e
      | .raised => tryXmlrpcBranch e
    | .restOnly =>
      match e.restCtor with
      | .ok => some .rest
      | .raised => none
    | .xmlrpcOnly =>
      match e.rpcCtor with
      | .ok => some .xmlrpc
      | .raised => none
    | .other => none

/-! ## Generator embedding (src/generator.py) -/

/-- `ArticleGenerator._check_forbidden_words` (src/generator.py lines
58-76): a case-insensitive substring test of every forbidden word
against the text (an empty forbidden list short-circuits to `false`,
which coincides with `List.any` over `[]`). -/
def checkForbiddenWords (fw : List String) (text : String) : Bool :=
  fw.any (fun w => isSubstringOf (lowerChars w.toList) (lowerChars text.toList))

/-- The per-attempt title post-processing of
`ArticleGenerator.generate_titles` (src/generator.py lines 142-154):
strip the response, split it into lines, strip each line and drop empty
ones, strip leading enumeration characters, then keep only non-empty
titles free of forbidden words. -/
def cleanTitles (fw : List String) (content : String) : List String :=
  (((splitLines (pyStrip content).toList).map
      (fun l => pyStrip (String.mk l))).filter
    (fun l => decide (l ≠ ""))).filterMap (fun line =>
      if lstripMarks line ≠ "" ∧ checkForbiddenWords fw (lstripMarks line) = false
      then some (lstripMarks line) else none)

/-- The retry loop of `ArticleGenerator.generate_titles`
(src/generator.py lines 130-168): `r` attempts remain and `i` is the
current attempt index into the LLM response stream `resp`.  An attempt
with at least `n` clean titles returns the first `n`; the last attempt
returns whatever it cleaned; with zero attempts the variable holding the
titles is never bound and the surrounding handler returns `[]`. -/
def titleLoop (fw : List String) (resp : Nat → String) (n : Nat) :
    Nat → Nat → List String
  | 0, _ => []
  | r + 1, i =>
    if n ≤ (cleanTitles fw (resp i)).length then (cleanTitles fw (resp i)).take n
    else if r = 0 then cleanTitles fw (resp i)
    else titleLoop fw resp n r (i + 1)

/-- `ArticleGenerator.generate_titles` (src/generator.py lines 78-172)
with the LLM modelled as the response stream `resp`. -/
def generateTitles (fw : List String) (resp : Nat → String)
    (n maxRetries : Nat) : List String :=
  titleLoop fw resp n maxRetries 0

/-- The `mixed` image-mode split of `ArticleGenerator.generate_article`
(src/generator.py lines 685-686): `search_count = image_count // 2` and
`generate_count = image_count - search_count`. -/
def mixedSplit (imageCount : Nat) : Nat × Nat :=
  (imageCount / 2, imageCount - imageCount / 2)

/-- The picsum placeholder id accumulation of
`ArticleGenerator._search_picsum` (src/generator.py lines 497-520): each
iteration runs `random.randint(1, 1000)` in a rejection loop until the
drawn id is unused; `choose` abstracts one terminating run of that
rejection loop as a function of the ids already used. -/
def picsumIdsAux (choose : List Nat → Nat) : Nat → List Nat → List Nat
  | 0, used => used
  | k + 1, used => picsumIdsAux choose k (used ++ [choose used])

/-- The list of placeholder ids drawn by `_search_picsum` for `count`
images. -/
def picsumIds (choose : List Nat → Nat) (count : Nat) : List Nat :=
  picsumIdsAux choose count []

/-- The URL built for one picsum id (src/generator.py line 516). -/
def picsumUrl (i : Nat) : String :=
  "https://picsum.photos/id/" ++ toString i ++ "/800/600"

/-- `ArticleGenerator._search_picsum` (src/generator.py lines 497-520):
the returned URL list. -/
def searchPicsum (choose : List Nat → Nat) (count : Nat) : List String :=
  (picsumIds choose count).map picsumUrl

/-- The contract of the rejection loop around `random.randint(1, 1000)`:
whenever an unused id in 1..1000 exists (i.e. whenever the loop can
terminate at all), the drawn id is in range and unused. -/
def GoodChoose (choose : List Nat → Nat) : Prop :=
  ∀ used : List Nat, (∃ x ∈ Finset.Icc 1 1000, x ∉ used) →
    choose used ∈ Finset.Icc 1 1000 ∧ choose used ∉ used

/-- A concrete terminating instance of the rejection loop: the least
unused id in 1..1000 (0 when none exists, which `GoodChoose` never
inspects). -/
def leastFresh (used : List Nat) : Nat :=
  ((((List.range 1000).map (fun x => x + 1)).filter
    (fun x => decide (x ∉ used))).headD 0)

/-- C8 as literally claimed, packaged as one proposition: for every
requested count, the picsum fallback yields that many pairwise distinct
ids in 1..1000. -/
def picsumClaimAllCounts : Prop :=
  ∀ (choose : List Nat → Nat) (k : Nat), GoodChoose choose →
    (searchPicsum choose k).length = k ∧ (picsumIds choose k).Nodup ∧
      ∀ i ∈ picsumIds choose k, i ∈ Finset.Icc 1 1000

/-- The LLM response stream of the C6 counterexample: the first attempt
produces the single clean title `A`, the second the single clean title
`B`. -/
def respC6 : Nat → String :=
  fun i => if i = 0 then "A" else "B"

/-- The LLM response stream used to exercise the title pipeline on a
title that legitimately begins with a year. -/
def respYear : Nat → String :=
  fun _ => "2025年最好用的AI工具"

/-- A deterministic instance of `random.choice`: the head of the list
(the default value is irrelevant on non-empty lists). -/
def pickHead (l : List Category) : Category :=
  l.headD ⟨1, "未分类"⟩

/-- A concrete remote category set: the reserved default plus one real
category. -/
def catsW : List Category :=
  [⟨1, "未分类"⟩, ⟨5, "科技"⟩]

/-- A `create_tag` world where the POST reports the conflict status 400
and the follow-up search finds the existing tag. -/
def tagEnvConflict : TagEnv :=
  ⟨false, 400, 0, false, 200, [("ai", 7)]⟩

/-- A `create_tag` world where the POST fails with a non-conflict status
(neither create nor lookup succeeds). -/
def tagEnvFail : TagEnv :=
  ⟨false, 500, 0, false, 200, []⟩

/-- A `create_tag` world where the POST succeeds with status 201. -/
def tagEnvOk : TagEnv :=
  ⟨false, 201, 3, false, 200, []⟩

/-- A per-tag-name world mixing the three `create_tag` outcomes. -/
def tagWorld : String → TagEnv :=
  fun s => if s = "ai" then tagEnvConflict
    else if s = "bad" then tagEnvFail else tagEnvOk

/-! ## General helper lemmas -/

theorem headD_mem {α : Type} (l : List α) (d : α) (h : l ≠ []) :
    l.headD d ∈ l := by
  cases l with
  | nil => exact absurd rfl h
  | cons a t => simp

theorem dropWhile_idem {α : Type} (p : α → Bool) (l : List α) :
    List.dropWhile p (List.dropWhile p l) = List.dropWhile p l := by
  induction l with
  | nil => rfl
  | cons a t ih =>
    by_cases hp : p a = true
    · simp [List.dropWhile_cons, hp, ih]
    · simp [List.dropWhile_cons, hp]

theorem dropWhile_head_false {α : Type} (p : α → Bool) (l : List α) (a : α)
    (h : (List.dropWhile p l).head? = some a) : p a = false := by
  induction l with
  | nil => simp [List.dropWhile] at h
  | cons b t ih =>
    by_cases hp : p b = true
    · rw [List.dropWhile_cons, if_pos hp] at h
      exact ih h
    · rw [List.dropWhile_cons, if_neg hp] at h
      simp at h
      subst h
      exact Bool.eq_false_iff.mpr hp

theorem singleton_prefix_iff {α : Type} (a : α) (l : List α) :
    [a] <+: l ↔ l.head? = some a := by
  cases l with
  | nil => simp
  | cons b t => simp [List.cons_prefix_cons, eq_comm]

/-! ## Theorems for the claims -/

/-- C9, counterexample: for requested image count 3, mixed mode assigns
1 image to the search half, not the larger share 2 the claim demands. -/
theorem mixed_split_cex :
    (mixedSplit 3).1 = 1 ∧ ((3 : Nat) + 1) / 2 = 2 ∧
      (mixedSplit 3).1 ≠ ((3 : Nat) + 1) / 2 := by
  decide

/-- C9, amended: in `mixed` mode the requested count is split into a
search half of `k / 2` and a generation half of `k - k / 2`; the two sum
to `k`, and for odd `k` the larger share `(k + 1) / 2` goes to the
generation half. -/
theorem mixed_split_generate_remainder (k : Nat) :
    mixedSplit k = (k / 2, (k + 1) / 2) ∧
      (mixedSplit k).1 + (mixedSplit k).2 = k := by
  unfold mixedSplit
  refine ⟨Prod.ext rfl ?_, ?_⟩
  · simp only []
    omega
  · simp only []
    omega

/-- C7: both `test_connection` implementations return `false` on every
modelled failure (any non-200 REST status, a raised transport exception
on either protocol) instead of propagating it. -/
theorem test_connection_false_on_failure :
    (∀ r : RestHttpResult,
      (r = .raised ∨ ∃ s, r = .resp s ∧ s ≠ 200) →
        restTestConnection r = false) ∧
    (∀ c : RpcCallResult, c = .raised → xmlrpcTestConnection c = false) := by
  constructor
  · intro r h
    rcases h with h | ⟨s, rfl, hs⟩
    · subst h; rfl
    · simp only [restTestConnection, if_neg hs]
      split <;> rfl
  · intro c h
    subst h
    rfl

/-- Witness for C7 at HTTP 401 and at a raised RPC call. -/
theorem test_connection_false_on_failure_witness :
    restTestConnection (.resp 401) = false ∧
      xmlrpcTestConnection .raised = false :=
  ⟨test_connection_false_on_failure.1 (.resp 401)
      (Or.inr ⟨401, rfl, by decide⟩),
    test_connection_false_on_failure.2 .raised rfl⟩

/-- C1: in `auto` mode the factory returns the REST adapter when its
construction succeeds and its connection test passes; when REST
construction raises or its test fails, it returns the XML-RPC adapter
exactly when that construction succeeds and its test passes, and `none`
when the XML-RPC branch also fails by exception or a failed test.  The
model is a total function into `Option`, so no exception escapes. -/
theorem auto_mode_failover (e : FactoryEnv) :
    (e.restCtor = .ok → e.restTest = true →
      createPublisher true .auto e = some .rest) ∧
    ((e.restCtor = .raised ∨ e.restTest = false) →
      (e.rpcCtor = .ok → e.rpcTest = true →
        createPublisher true .auto e = some .xmlrpc) ∧
      ((e.rpcCtor = .raised ∨ e.rpcTest = false) →
        createPublisher true .auto e = none)) := by
  obtain ⟨rc, rt, pc, pt⟩ := e
  cases rc <;> cases rt <;> cases pc <;> cases pt <;>
    simp [createPublisher, tryXmlrpcBranch]

/-- Witness for C1: REST construction raises, the XML-RPC branch
succeeds, and the factory returns the XML-RPC adapter. -/
theorem auto_mode_failover_witness :
    createPublisher true .auto ⟨.raised, false, .ok, true⟩ = some .xmlrpc :=
  ((auto_mode_failover ⟨.raised, false, .ok, true⟩).2 (Or.inl rfl)).1 rfl rfl

/-! ## URL normalization lemmas (C3) -/

theorem pyEndsWith_slash_iff (s : String) :
    pyEndsWith s "/" = true ↔ s.toList.reverse.head? = some '/' := by
  unfold pyEndsWith
  rw [List.isSuffixOf_iff_suffix]
  rw [show ("/" : String).toList = ['/'] from rfl]
  rw [← List.reverse_prefix, List.reverse_singleton]
  exact singleton_prefix_iff '/' s.toList.reverse

theorem rstripSlash_no_trailing (s : String) :
    pyEndsWith (rstripSlash s) "/" = false := by
  by_contra h
  have h2 : pyEndsWith (rstripSlash s) "/" = true := by
    cases hb : pyEndsWith (rstripSlash s) "/"
    · exact absurd hb h
    · rfl
  rw [pyEndsWith_slash_iff] at h2
  have h3 : (rstripSlash s).toList.reverse =
      s.toList.reverse.dropWhile (fun c => c = '/') := by
    simp [rstripSlash, String.toList]
  rw [h3] at h2
  have := dropWhile_head_false (fun c => c = '/') s.toList.reverse '/' h2
  simp at this

theorem rstripSlash_eq_self (s : String) (h : pyEndsWith s "/" = false) :
    rstripSlash s = s := by
  have hd : s.toList.reverse.dropWhile (fun c => c = '/') = s.toList.reverse := by
    cases hrev : s.toList.reverse with
    | nil => rfl
    | cons c r =>
      rw [List.dropWhile_cons]
      have hc : (c = '/') = False := by
        by_contra hcc
        simp only [eq_iff_iff, iff_false] at hcc
        push_neg at hcc
        subst hcc
        have : pyEndsWith s "/" = true := by
          rw [pyEndsWith_slash_iff, hrev]
          rfl
        rw [this] at h
        exact Bool.noConfusion h
      simp [hc]
  show String.mk ((s.toList.reverse.dropWhile (fun c => c = '/')).reverse) = s
  rw [hd, List.reverse_reverse]
  rfl

/-- C3, counterexample: the REST constructor removes twelve characters
for the eleven-character `/xmlrpc.php` suffix, clipping the final
character of the origin, and the XML-RPC constructor removes nothing. -/
theorem url_normalization_cex :
    restNormalizeBase "https://blog.com/xmlrpc.php" = "https://blog.co" ∧
    restNormalizeBase "https://blog.com/xmlrpc.php" ≠ "https://blog.com" ∧
    xmlrpcNormalizeUrl "https://blog.com/xmlrpc.php" =
      "https://blog.com/xmlrpc.php" := by
  refine ⟨by decide, by decide, by decide⟩

/-- C3, amended: the REST adapter's base URL never ends with a slash; a
URL that already has the `https://` scheme and ends with neither `/` nor
`/xmlrpc.php` passes through unchanged; a schemeless such URL only gains
the `https://` scheme; but a URL ending in `/xmlrpc.php` loses the
suffix PLUS the preceding character (twelve characters, an off-by-one);
and the XML-RPC adapter applies no normalization at all to a URL that
already has a scheme. -/
theorem url_normalization_amended :
    (∀ url, pyEndsWith (restNormalizeBase url) "/" = false) ∧
    (∀ url : String, pyEndsWith url "/xmlrpc.php" = false →
      pyStartsWith url "http://" = false →
      pyStartsWith url "https://" = false →
      pyEndsWith url "/" = false → url ≠ "" →
      restNormalizeBase url = "https://" ++ url) ∧
    (∀ url : String, pyEndsWith url "/xmlrpc.php" = false →
      pyStartsWith url "https://" = true →
      pyEndsWith url "/" = false →
      restNormalizeBase url = url) ∧
    (∀ l : List Char,
      restNormalizeBase (String.mk (l ++ ("/xmlrpc.php" : String).toList)) =
        rstripSlash (ensureScheme (pyDropRight (String.mk l) 1))) ∧
    (∀ url,
      pyStartsWith url "http://" = true ∨ pyStartsWith url "https://" = true →
      xmlrpcNormalizeUrl url = url) := by
  refine ⟨?_, ?_, ?_, ?_, ?_⟩
  · intro url
    unfold restNormalizeBase
    exact rstripSlash_no_trailing _
  · intro url h1 h2 h3 h4 h5
    unfold restNormalizeBase ensureScheme
    rw [h1, if_neg Bool.false_ne_true, h2, h3,
      if_pos (show (!(false || false)) = true from rfl)]
    apply rstripSlash_eq_self
    cases hb : pyEndsWith ("https://" ++ url) "/"
    · rfl
    · exfalso
      rw [pyEndsWith_slash_iff] at hb
      have hne : url.toList ≠ [] := by
        intro hnil
        apply h5
        cases url
        simp [String.toList] at hnil
        rw [hnil]
      have hrw : ("https://" ++ url).toList.reverse =
          url.toList.reverse ++ ("https://" : String).toList.reverse := by
        rw [show ("https://" ++ url).toList = ("https://" : String).toList ++ url.toList
          from String.data_append _ _]
        exact List.reverse_append _ _
      rw [hrw, List.head?_append] at hb
      have hne2 : url.toList.reverse.head?.isSome := by
        cases hh : url.toList.reverse.head? with
        | none =>
          rw [List.head?_eq_none_iff] at hh
          exact absurd (by simpa using hh) hne
        | some c => rfl
      rw [Option.or_of_isSome hne2] at hb
      have : pyEndsWith url "/" = true := by rw [pyEndsWith_slash_iff]; exact hb
      rw [this] at h4
      exact Bool.noConfusion h4
  · intro url h1 h2 h3
    unfold restNormalizeBase ensureScheme
    rw [h1, if_neg Bool.false_ne_true, h2, if_neg (by simp)]
    exact rstripSlash_eq_self url h3
  · intro l
    unfold restNormalizeBase
    have hsuf : pyEndsWith (String.mk (l ++ ("/xmlrpc.php" : String).toList))
        "/xmlrpc.php" = true := by
      unfold pyEndsWith
      rw [List.isSuffixOf_iff_suffix]
      exact List.suffix_append l _
    rw [if_pos hsuf]
    have hdrop : pyDropRight (String.mk (l ++ ("/xmlrpc.php" : String).toList)) 12 =
        pyDropRight (String.mk l) 1 := by
      unfold pyDropRight
      congr 1
      show List.take ((l ++ ("/xmlrpc.php" : String).toList).length - 12)
          (l ++ ("/xmlrpc.php" : String).toList) =
        List.take (l.length - 1) l
      rw [List.length_append,
        show ("/xmlrpc.php" : String).toList.length = 11 from rfl,
        show l.length + 11 - 12 = l.length - 1 from by omega]
      exact List.take_append_of_le_length (by omega)
    rw [hdrop]
  · intro url h
    unfold xmlrpcNormalizeUrl ensureScheme
    rcases h with h | h
    · rw [h, if_neg (by simp)]
    · rw [h, if_neg (by simp)]

/-- Witness for C3 (amended) at concrete URLs: a schemeless clean URL
gains only the scheme, and a scheme-bearing XML-RPC endpoint URL is kept
verbatim. -/
theorem url_normalization_amended_witness :
    restNormalizeBase "blog.com" = "https://blog.com" ∧
    xmlrpcNormalizeUrl "https://b.com/xmlrpc.php" = "https://b.com/xmlrpc.php" :=
  ⟨url_normalization_amended.2.1 "blog.com" (by decide) (by decide) (by decide)
      (by decide) (by decide),
    url_normalization_amended.2.2.2.2 "https://b.com/xmlrpc.php"
      (Or.inr (by decide))⟩

/-! ## Random category fallback lemmas (C2) -/

theorem restRandom_spec (pick : List Category → Category) (cats : List Category)
    (hp : ∀ l : List Category, l ≠ [] → pick l ∈ l)
    (hex : ∃ c ∈ cats, c.id ≠ 1) :
    restGetRandomCategoryId pick cats =
      some (pick (cats.filter (fun c => decide (c.id ≠ 1)))).id ∧
    (pick (cats.filter (fun c => decide (c.id ≠ 1)))).id ≠ 1 := by
  obtain ⟨c, hc, hcid⟩ := hex
  have hcf : c ∈ cats.filter (fun c => decide (c.id ≠ 1)) := by
    rw [List.mem_filter]
    exact ⟨hc, by simpa using hcid⟩
  have hfil : cats.filter (fun c => decide (c.id ≠ 1)) ≠ [] :=
    List.ne_nil_of_mem hcf
  have hcats : cats ≠ [] := List.ne_nil_of_mem hc
  have hpick := hp _ hfil
  have hpid : (pick (cats.filter (fun c => decide (c.id ≠ 1)))).id ≠ 1 := by
    have := (List.mem_filter.mp hpick).2
    simpa using this
  refine ⟨?_, hpid⟩
  unfold restGetRandomCategoryId
  rw [if_neg (by simp only [List.isEmpty_iff]; exact hcats),
    if_neg (by simp only [List.isEmpty_iff]; exact hfil)]

theorem restRandom_reserved_only_if_alone (pick : List Category → Category)
    (cats : List Category) (hp : ∀ l : List Category, l ≠ [] → pick l ∈ l)
    (hone : restGetRandomCategoryId pick cats = some 1) :
    ∀ c ∈ cats, c.id = 1 := by
  by_cases hx : ∃ c ∈ cats, c.id ≠ 1
  · exfalso
    obtain ⟨heq, hne⟩ := restRandom_spec pick cats hp hx
    rw [hone] at heq
    exact hne (Option.some.inj heq).symm
  · push_neg at hx
    exact hx

/-- C2: when the remote category set contains a category other than the
reserved id 1, both adapters' random fallback picks from exactly the
non-reserved categories (so never id 1); id 1 can only come out when
every available category carries it; and the REST `publish_post`
category slice reduces to that fallback whenever the requested name
matches nothing the search endpoint can return, so the id it attaches is
never the reserved one. -/
theorem random_category_avoids_reserved :
    (∀ (pick : List Category → Category) (cats : List Category),
      (∀ l : List Category, l ≠ [] → pick l ∈ l) →
      (∃ c ∈ cats, c.id ≠ 1) →
      restGetRandomCategoryId pick cats =
        some (pick (cats.filter (fun c => decide (c.id ≠ 1)))).id ∧
      (pick (cats.filter (fun c => decide (c.id ≠ 1)))).id ≠ 1) ∧
    (∀ (pick : List Category → Category) (cats : List Category),
      (∀ l : List Category, l ≠ [] → pick l ∈ l) →
      (∃ c ∈ cats, c.id ≠ 1) →
      ∀ p, xmlrpcGetRandomCategory pick cats = some p → p.2 ≠ 1) ∧
    (∀ (pick : List Category → Category) (cats : List Category),
      (∀ l : List Category, l ≠ [] → pick l ∈ l) →
      restGetRandomCategoryId pick cats = some 1 → ∀ c ∈ cats, c.id = 1) ∧
    (∀ (pick : List Category → Category) (searchResp : Option (List Category))
      (allCats : List Category) (category : Option String) (dflt : String),
      (∀ l : List Category, l ≠ [] → pick l ∈ l) →
      (∀ l, searchResp = some l → ∀ c ∈ l, c ∈ allCats) →
      (∀ c ∈ allCats, c.name ≠ effectiveName category dflt) →
      restSelectCategoryId pick searchResp allCats category dflt =
        restGetRandomCategoryId pick allCats ∧
      ((∃ c ∈ allCats, c.id ≠ 1) →
        ∀ i, restSelectCategoryId pick searchResp allCats category dflt =
          some i → i ≠ 1)) := by
  refine ⟨restRandom_spec, ?_, restRandom_reserved_only_if_alone, ?_⟩
  · intro pick cats hp hex p hsome
    obtain ⟨c, hc, hcid⟩ := hex
    have hcf : c ∈ cats.filter (fun c => decide (c.id ≠ 1)) := by
      rw [List.mem_filter]
      exact ⟨hc, by simpa using hcid⟩
    have hfil : cats.filter (fun c => decide (c.id ≠ 1)) ≠ [] :=
      List.ne_nil_of_mem hcf
    have hcats : cats ≠ [] := List.ne_nil_of_mem hc
    have hpick := hp _ hfil
    have hpid : (pick (cats.filter (fun c => decide (c.id ≠ 1)))).id ≠ 1 := by
      have := (List.mem_filter.mp hpick).2
      simpa using this
    unfold xmlrpcGetRandomCategory at hsome
    rw [if_neg (by simp only [List.isEmpty_iff]; exact hcats),
      if_neg (by simp only [List.isEmpty_iff]; exact hfil)] at hsome
    have := (Option.some.inj hsome).symm
    subst this
    exact hpid
  · intro pick searchResp allCats category dflt hp hsearch hname
    have hlook : restGetCategoryId searchResp (effectiveName category dflt) =
        none := by
      cases searchResp with
      | none => rfl
      | some l =>
        have hfind : l.find? (fun c => c.name == effectiveName category dflt) =
            none := by
          rw [List.find?_eq_none]
          intro c hcl
          have := hname c (hsearch l rfl c hcl)
          simpa using this
        show (l.find? (fun c => c.name == effectiveName category dflt)).map
          (fun c => c.id) = none
        rw [hfind]
        rfl
    have hsel : restSelectCategoryId pick searchResp allCats category dflt =
        restGetRandomCategoryId pick allCats := by
      unfold restSelectCategoryId
      by_cases hne : effectiveName category dflt ≠ ""
      · rw [if_pos hne, hlook]
      · rw [if_neg hne]
    refine ⟨hsel, ?_⟩
    intro hex i hi
    rw [hsel] at hi
    obtain ⟨heq, hnid⟩ := restRandom_spec pick allCats hp hex
    rw [heq] at hi
    have hii := Option.some.inj hi
    rw [← hii]
    exact hnid

/-- Witness for C2: with categories `[(1, 未分类), (5, 科技)]`, the name
`新闻` absent, and a head-picking choice function, the REST slice falls
back to the random choice and selects id 5, not the reserved id 1. -/
theorem random_category_avoids_reserved_witness :
    restSelectCategoryId pickHead (some []) catsW (some "新闻") "未分类" =
      restGetRandomCategoryId pickHead catsW ∧
    restGetRandomCategoryId pickHead catsW = some 5 ∧ (5 : Nat) ≠ 1 := by
  have hp : ∀ l : List Category, l ≠ [] → pickHead l ∈ l := by
    intro l hl
    exact headD_mem l _ hl
  have hsearch : ∀ l, (some ([] : List Category)) = some l →
      ∀ c ∈ l, c ∈ catsW := by
    intro l hl c hc
    cases hl
    simp at hc
  have hname : ∀ c ∈ catsW, c.name ≠ effectiveName (some "新闻") "未分类" := by
    decide
  refine ⟨(random_category_avoids_reserved.2.2.2 pickHead (some []) catsW
    (some "新闻") "未分类" hp hsearch hname).1, by decide, by decide⟩

/-! ## Tag resolution lemmas (C4) -/

theorem collectTagIds_skip_failed (w : String → TagEnv) (t : String)
    (hnone : createTag (w t) t = none) :
    ∀ tags : List String,
      collectTagIds w tags =
        collectTagIds w (tags.filter (fun s => decide (s ≠ t))) := by
  intro tags
  induction tags with
  | nil => rfl
  | cons a l ih =>
    unfold collectTagIds at ih ⊢
    rw [List.filter_cons, List.filterMap_cons]
    by_cases ha : a = t
    · subst ha
      rw [hnone]
      have hd : decide (a ≠ a) = false := by simp
      rw [hd]
      simpa using ih
    · have hd : decide (a ≠ t) = true := by simpa using ha
      rw [hd]
      simp only [if_true]
      rw [List.filterMap_cons]
      cases hca : createTag (w a) a with
      | none => exact ih
      | some b => rw [ih]

theorem collectTagIds_congr_outside (w w2 : String → TagEnv) (t : String)
    (hagree : ∀ s, s ≠ t → w s = w2 s) :
    ∀ tags : List String,
      collectTagIds w (tags.filter (fun s => decide (s ≠ t))) =
        collectTagIds w2 (tags.filter (fun s => decide (s ≠ t))) := by
  intro tags
  induction tags with
  | nil => rfl
  | cons a l ih =>
    rw [List.filter_cons]
    by_cases ha : a = t
    · subst ha
      have hd : decide (a ≠ a) = false := by simp
      rw [hd]
      simpa using ih
    · have hd : decide (a ≠ t) = true := by simpa using ha
      rw [hd]
      simp only [if_true]
      unfold collectTagIds at ih ⊢
      rw [List.filterMap_cons, List.filterMap_cons, hagree a ha]
      cases createTag (w2 a) a with
      | none => exact ih
      | some b => rw [ih]

/-- C4: a tag creation that reports the protocol conflict status 400 is
resolved by the name search, reusing the existing id; a tag for which
neither create nor lookup succeeds contributes nothing, so the collected
tag ids equal those collected for the request without it; and two worlds
agreeing on every other tag name collect identical ids for those other
tags, so one tag's failure never changes which of the rest are
attached. -/
theorem tag_resolution_isolated :
    (∀ (env : TagEnv) (name : String) (p : String × Nat),
      env.createRaises = false → env.createStatus = 400 →
      env.searchRaises = false → env.searchStatus = 200 →
      env.searchResults.find? (fun q => q.1 == name) = some p →
      createTag env name = some p.2) ∧
    (∀ (w : String → TagEnv) (tags : List String) (t : String),
      createTag (w t) t = none →
      collectTagIds w tags =
        collectTagIds w (tags.filter (fun s => decide (s ≠ t)))) ∧
    (∀ (w w2 : String → TagEnv) (tags : List String) (t : String),
      (∀ s, s ≠ t → w s = w2 s) →
      collectTagIds w (tags.filter (fun s => decide (s ≠ t))) =
        collectTagIds w2 (tags.filter (fun s => decide (s ≠ t)))) := by
  refine ⟨?_, ?_, ?_⟩
  · intro env name p h1 h2 h3 h4 h5
    unfold createTag
    rw [h1, if_neg Bool.false_ne_true, h2,
      if_neg (by decide : ¬((400 : Nat) = 201)),
      if_pos (rfl : (400 : Nat) = 400), h3, if_neg Bool.false_ne_true, h4,
      if_pos (rfl : (200 : Nat) = 200), h5]
    rfl
  · intro w tags t h
    exact collectTagIds_skip_failed w t h tags
  · intro w w2 tags t h
    exact collectTagIds_congr_outside w w2 t h tags

/-- Witness for C4 in a world where `ai` conflicts (and resolves to the
existing id 7), `bad` fails outright, and every other tag is created with
id 3: the failed tag is dropped and the rest are unaffected. -/
theorem tag_resolution_isolated_witness :
    createTag tagEnvConflict "ai" = some 7 ∧
    collectTagIds tagWorld ["x", "bad", "ai"] =
      collectTagIds tagWorld
        (["x", "bad", "ai"].filter (fun s => decide (s ≠ "bad"))) ∧
    collectTagIds tagWorld ["x", "bad", "ai"] = [3, 7] := by
  refine ⟨?_, ?_, by decide⟩
  · exact tag_resolution_isolated.1 tagEnvConflict "ai" ("ai", 7) rfl rfl rfl rfl
      (by decide)
  · exact tag_resolution_isolated.2.1 tagWorld ["x", "bad", "ai"] "bad" (by decide)

/-! ## Title pipeline lemmas (C5, C6, C10) -/

theorem mem_cleanTitles {fw : List String} {content t : String}
    (h : t ∈ cleanTitles fw content) :
    t ≠ "" ∧ checkForbiddenWords fw t = false ∧ lstripMarks t = t := by
  unfold cleanTitles at h
  rw [List.mem_filterMap] at h
  obtain ⟨line, hline, heq⟩ := h
  by_cases hc : lstripMarks line ≠ "" ∧
      checkForbiddenWords fw (lstripMarks line) = false
  · rw [if_pos hc] at heq
    have ht : t = lstripMarks line := (Option.some.inj heq).symm
    subst ht
    refine ⟨hc.1, hc.2, ?_⟩
    show String.mk ((line.toList.dropWhile
        (fun c => decide (c ∈ markChars))).dropWhile
        (fun c => decide (c ∈ markChars))) =
      String.mk (line.toList.dropWhile (fun c => decide (c ∈ markChars)))
    exact congrArg String.mk (dropWhile_idem _ _)
  · rw [if_neg hc] at heq
    exact Option.noConfusion heq

theorem titleLoop_shape (fw : List String) (resp : Nat → String) (n : Nat) :
    ∀ r i, titleLoop fw resp n r i = [] ∨
      (∃ j, titleLoop fw resp n r i = (cleanTitles fw (resp j)).take n) ∨
      (∃ j, titleLoop fw resp n r i = cleanTitles fw (resp j) ∧
        (cleanTitles fw (resp j)).length < n) := by
  intro r
  induction r with
  | zero => intro i; exact Or.inl rfl
  | succ r ih =>
    intro i
    by_cases h1 : n ≤ (cleanTitles fw (resp i)).length
    · right; left
      exact ⟨i, by simp only [titleLoop, if_pos h1]⟩
    · by_cases h2 : r = 0
      · right; right
        refine ⟨i, ?_, Nat.lt_of_not_le h1⟩
        simp only [titleLoop, if_neg h1, if_pos h2]
      · have heq : titleLoop fw resp n (r + 1) i = titleLoop fw resp n r (i + 1) := by
          simp only [titleLoop, if_neg h1, if_neg h2]
        rw [heq]
        exact ih (i + 1)

theorem titleLoop_exhaust (fw : List String) (resp : Nat → String) (n : Nat) :
    ∀ r i, 1 ≤ r →
      (∀ j, j < r → (cleanTitles fw (resp (i + j))).length < n) →
      titleLoop fw resp n r i = cleanTitles fw (resp (i + (r - 1))) := by
  intro r
  induction r with
  | zero => intro i h; exact absurd h (by omega)
  | succ r ih =>
    intro i hr hins
    have h0 : (cleanTitles fw (resp i)).length < n := by
      have := hins 0 (by omega)
      simpa using this
    rcases Nat.eq_zero_or_pos r with h2 | h2
    · subst h2
      simp only [titleLoop, if_neg (Nat.not_le.mpr h0), if_pos rfl]
      simp
    · have h2' : r ≠ 0 := by omega
      have heq : titleLoop fw resp n (r + 1) i = titleLoop fw resp n r (i + 1) := by
        simp only [titleLoop, if_neg (Nat.not_le.mpr h0), if_neg h2']
      rw [heq, ih (i + 1) (by omega) ?_]
      · have harg : (i + 1) + (r - 1) = i + (r + 1 - 1) := by omega
        rw [harg]
      · intro j hj
        have := hins (j + 1) (by omega)
        have harg : i + (j + 1) = (i + 1) + j := by omega
        rw [harg] at this
        exact this

/-- C5: `generate_titles` returns at most `n` titles, and none of them
contains any forbidden word as a case-insensitive substring. -/
theorem generate_titles_filtered_bounded (fw : List String)
    (resp : Nat → String) (n mr : Nat) :
    (generateTitles fw resp n mr).length ≤ n ∧
    ∀ t ∈ generateTitles fw resp n mr, ∀ w ∈ fw,
      isSubstringOf (lowerChars w.toList) (lowerChars t.toList) = false := by
  have hf : ∀ (t : String) (content : String), t ∈ cleanTitles fw content →
      ∀ w ∈ fw,
        isSubstringOf (lowerChars w.toList) (lowerChars t.toList) = false := by
    intro t content ht w hw
    have hc := (mem_cleanTitles ht).2.1
    unfold checkForbiddenWords at hc
    rw [List.any_eq_false] at hc
    have := hc w hw
    simpa using this
  rcases titleLoop_shape fw resp n mr 0 with h | ⟨j, h⟩ | ⟨j, h, hlen⟩ <;>
    unfold generateTitles <;> rw [h]
  · refine ⟨Nat.zero_le n, ?_⟩
    intro t ht
    simp at ht
  · constructor
    · rw [List.length_take]
      exact Nat.min_le_left _ _
    · intro t ht w hw
      exact hf t (resp j) (List.mem_of_mem_take ht) w hw
  · exact ⟨Nat.le_of_lt hlen, fun t ht w hw => hf t (resp j) ht w hw⟩

/-- Witness for C5: with forbidden list `["揭秘"]` and one LLM response
holding a forbidden and a clean candidate, the returned title is clean. -/
theorem generate_titles_filtered_bounded_witness :
    (generateTitles ["揭秘"] (fun _ => "1. 揭秘AI工具\n2、好用的工具") 1 1).length ≤ 1 ∧
    isSubstringOf (lowerChars "揭秘".toList)
      (lowerChars "好用的工具".toList) = false :=
  ⟨(generate_titles_filtered_bounded ["揭秘"]
      (fun _ => "1. 揭秘AI工具\n2、好用的工具") 1 1).1,
    (generate_titles_filtered_bounded ["揭秘"]
      (fun _ => "1. 揭秘AI工具\n2、好用的工具") 1 1).2 "好用的工具" (by decide)
      "揭秘" (by decide)⟩

/-- C6, counterexample: with two attempts both under the requested count
2, the first attempt's clean title `A` is absent from the result, which
holds only the final attempt's `B` — nothing is accumulated across
attempts. -/
theorem title_retry_accumulation_cex :
    generateTitles [] respC6 2 2 = ["B"] ∧
    (cleanTitles [] (respC6 0)).length < 2 ∧
    (cleanTitles [] (respC6 1)).length < 2 ∧
    "A" ∈ cleanTitles [] (respC6 0) ∧
    "A" ∉ generateTitles [] respC6 2 2 := by
  decide

/-- C6, amended: when every attempt yields fewer than `n` clean titles,
`generate_titles` returns exactly the clean titles of the LAST attempt
(possibly fewer than `n`, or empty) — titles from earlier attempts are
discarded, not accumulated. -/
theorem title_retry_last_attempt (fw : List String) (resp : Nat → String)
    (n mr : Nat) (h1 : 1 ≤ mr)
    (h2 : ∀ j, j < mr → (cleanTitles fw (resp j)).length < n) :
    generateTitles fw resp n mr = cleanTitles fw (resp (mr - 1)) := by
  unfold generateTitles
  have := titleLoop_exhaust fw resp n mr 0 h1 (by intro j hj; simpa using h2 j hj)
  simpa using this

/-- Witness for C6 (amended) on the two-attempt run: the result is the
second attempt's clean titles. -/
theorem title_retry_last_attempt_witness :
    generateTitles [] respC6 2 2 = cleanTitles [] (respC6 1) := by
  have h2 : ∀ j, j < 2 → (cleanTitles [] (respC6 j)).length < 2 := by
    intro j hj
    interval_cases j <;> decide
  exact title_retry_last_attempt [] respC6 2 2 (by omega) h2

/-- C10: every title returned by `generate_titles` has had its maximal
leading run of characters from `0123456789.、 ` removed — it is a fixed
point of that strip, so legitimate leading digits (a year, say) are gone
as well. -/
theorem titles_leading_marks_stripped (fw : List String) (resp : Nat → String)
    (n mr : Nat) :
    ∀ t ∈ generateTitles fw resp n mr, lstripMarks t = t := by
  intro t ht
  rcases titleLoop_shape fw resp n mr 0 with h | ⟨j, h⟩ | ⟨j, h, _⟩ <;>
    unfold generateTitles at ht <;> rw [h] at ht
  · simp at ht
  · exact (mem_cleanTitles (List.mem_of_mem_take ht)).2.2
  · exact (mem_cleanTitles ht).2.2

/-- Witness for C10: a title starting with the year 2025 comes back with
the digits stripped, and the returned title is lstrip-stable. -/
theorem titles_leading_marks_stripped_witness :
    generateTitles [] respYear 1 1 = ["年最好用的AI工具"] ∧
    lstripMarks "年最好用的AI工具" = "年最好用的AI工具" :=
  ⟨by decide,
    titles_leading_marks_stripped [] respYear 1 1 "年最好用的AI工具" (by decide)⟩

/-! ## Picsum placeholder lemmas (C8) -/

theorem exists_fresh_id {used : List Nat} (hn : used.Nodup)
    (hl : used.length < 1000) :
    ∃ x ∈ Finset.Icc 1 1000, x ∉ used := by
  by_contra hcon
  push_neg at hcon
  have hsub : Finset.Icc 1 1000 ⊆ used.toFinset := by
    intro x hx
    exact List.mem_toFinset.mpr (hcon x hx)
  have hcard := Finset.card_le_card hsub
  rw [List.toFinset_card_of_nodup hn, Nat.card_Icc] at hcard
  omega

theorem picsumAux_spec (choose : List Nat → Nat) (hg : GoodChoose choose) :
    ∀ (k : Nat) (used : List Nat), used.Nodup →
      (∀ i ∈ used, i ∈ Finset.Icc 1 1000) → used.length + k ≤ 1000 →
      (picsumIdsAux choose k used).length = used.length + k ∧
      (picsumIdsAux choose k used).Nodup ∧
      ∀ i ∈ picsumIdsAux choose k used, i ∈ Finset.Icc 1 1000 := by
  intro k
  induction k with
  | zero =>
    intro used hn hr hle
    exact ⟨rfl, hn, hr⟩
  | succ k ih =>
    intro used hn hr hle
    have hfresh : ∃ x ∈ Finset.Icc 1 1000, x ∉ used :=
      exists_fresh_id hn (by omega)
    obtain ⟨hc1, hc2⟩ := hg used hfresh
    have hn2 : (used ++ [choose used]).Nodup := by
      rw [List.nodup_append]
      exact ⟨hn, List.nodup_singleton _, by simpa [List.disjoint_singleton] using hc2⟩
    have hr2 : ∀ i ∈ used ++ [choose used], i ∈ Finset.Icc 1 1000 := by
      intro i hi
      rcases List.mem_append.mp hi with hi | hi
      · exact hr i hi
      · have : i = choose used := by simpa using hi
        subst this
        exact hc1
    have hlen2 : (used ++ [choose used]).length = used.length + 1 := by simp
    have := ih (used ++ [choose used]) hn2 hr2 (by omega)
    refine ⟨?_, this.2.1, this.2.2⟩
    show (picsumIdsAux choose (k + 1) used).length = used.length + (k + 1)
    have hrw : picsumIdsAux choose (k + 1) used =
        picsumIdsAux choose k (used ++ [choose used]) := rfl
    rw [hrw, this.1, hlen2]
    omega

theorem goodChoose_leastFresh : GoodChoose leastFresh := by
  intro used hex
  obtain ⟨x, hx, hxu⟩ := hex
  have hxl : x ∈ ((List.range 1000).map (fun y => y + 1)).filter
      (fun y => decide (y ∉ used)) := by
    rw [List.mem_filter]
    constructor
    · rw [List.mem_map]
      refine ⟨x - 1, ?_, ?_⟩
      · rw [List.mem_range]
        rw [Finset.mem_Icc] at hx
        omega
      · rw [Finset.mem_Icc] at hx
        omega
    · simpa using hxu
  have hne : ((List.range 1000).map (fun y => y + 1)).filter
      (fun y => decide (y ∉ used)) ≠ [] := List.ne_nil_of_mem hxl
  have hmem := headD_mem _ 0 hne
  have hparts := List.mem_filter.mp hmem
  constructor
  · obtain ⟨y, hy, hyx⟩ := List.mem_map.mp hparts.1
    rw [List.mem_range] at hy
    rw [Finset.mem_Icc]
    show 1 ≤ leastFresh used ∧ leastFresh used ≤ 1000
    unfold leastFresh
    omega
  · have := hparts.2
    show leastFresh used ∉ used
    unfold leastFresh
    simpa using this

/-- C8, counterexample: the claim cannot hold for every requested count:
at count 1001 no list of pairwise distinct ids inside 1..1000 exists (and
the rejection loop around `random.randint(1, 1000)` can never terminate
once all 1000 ids are used). -/
theorem picsum_all_counts_cex : ¬ picsumClaimAllCounts := by
  intro h
  obtain ⟨hlen, hnodup, hrange⟩ := h leastFresh 1001 goodChoose_leastFresh
  have hl : (picsumIds leastFresh 1001).length = 1001 := by
    have : (searchPicsum leastFresh 1001).length =
        (picsumIds leastFresh 1001).length := by
      unfold searchPicsum
      rw [List.length_map]
    rw [this] at hlen
    exact hlen
  have hsub : (picsumIds leastFresh 1001).toFinset ⊆ Finset.Icc 1 1000 := by
    intro i hi
    exact hrange i (List.mem_toFinset.mp hi)
  have hcard := Finset.card_le_card hsub
  rw [List.toFinset_card_of_nodup hnodup, hl, Nat.card_Icc] at hcard
  omega

/-- C8, amended: for every requested count `k ≤ 1000` (the only counts
for which the id-rejection loop can terminate), `_search_picsum` returns
exactly `k` URLs, one per drawn id, with the ids pairwise distinct and
all inside the fixed range 1..1000. -/
theorem picsum_bounded_count (choose : List Nat → Nat) (k : Nat)
    (hg : GoodChoose choose) (hk : k ≤ 1000) :
    (searchPicsum choose k).length = k ∧
    searchPicsum choose k = (picsumIds choose k).map picsumUrl ∧
    (picsumIds choose k).Nodup ∧
    ∀ i ∈ picsumIds choose k, 1 ≤ i ∧ i ≤ 1000 := by
  have h := picsumAux_spec choose hg k [] (by simp) (by simp) (by simpa)
  have hlen : (picsumIds choose k).length = k := by
    unfold picsumIds
    rw [h.1]
    simp
  refine ⟨?_, rfl, h.2.1, ?_⟩
  · unfold searchPicsum
    rw [List.length_map, hlen]
  · intro i hi
    have := h.2.2 i hi
    rw [Finset.mem_Icc] at this
    exact this

/-- Witness for C8 (amended) at count 3 with the least-unused-id instance
of the rejection loop. -/
theorem picsum_bounded_count_witness :
    (searchPicsum leastFresh 3).length = 3 ∧ (picsumIds leastFresh 3).Nodup :=
  ⟨(picsum_bounded_count leastFresh 3 goodChoose_leastFresh (by decide)).1,
    (picsum_bounded_count leastFresh 3 goodChoose_leastFresh (by decide)).2.2.1⟩

end AutoPost
